import Mathlib

/-!
Shallow embedding of the symbolic math engine of the AI Learning Hub server
(`server/src/math/fraction.js`, `server/src/math/parser.js`,
`server/src/math/solver.js`).

JavaScript numbers are modelled as exact rationals: the values flowing
through the engine are integers or short decimal literals, far below the
2^53 range where double-precision floats are exact.  A numeric value is a
`JsNum` pair (numerator, denominator); the only operations the source
applies to non-integer numbers are construction from a decimal literal,
comparison with zero, `Math.round`, and `Number.isInteger`, all of which
are defined below.  Thrown exceptions are modelled with `Except String`:
`.error msg` is a thrown `Error(msg)`.
-/

/-- A JavaScript number, represented exactly as `num / den`.
`den = 0` encodes the non-finite results `NaN`/`Infinity` (which arise
only from division by zero, e.g. `toDecimal` of a zero-denominator
fraction). -/
structure JsNum where
  num : ℤ
  den : ℤ
  deriving DecidableEq, Repr

/-- An integer-valued JavaScript number. -/
def JsNum.ofInt (n : ℤ) : JsNum := ⟨n, 1⟩

/-- Strict equality `x === 0` (false for `NaN`/`Infinity`). -/
def JsNum.isZero (x : JsNum) : Bool := x.num == 0 && x.den != 0

/-- `Number.isInteger(x)` (false for `NaN`/`Infinity`). -/
def JsNum.isInt (x : JsNum) : Bool := x.den != 0 && x.den ∣ x.num

/-- The integer value of an integer-valued `JsNum`. -/
def JsNum.toInt (x : JsNum) : ℤ := x.num / x.den

/-- `Math.round(x)` = `⌊x + 1/2⌋`.  For the denominators that occur
(always positive) the Euclidean division below is exactly the floor. -/
def jsRound (x : JsNum) : ℤ := (2 * x.num + x.den) / (2 * x.den)

/-- `gcd(a, b)` from `fraction.js`: the Euclidean algorithm on the
absolute values (`a = Math.abs(a); b = Math.abs(b); while (b !== 0) ...`),
which is exactly `Int.gcd`. -/
def jsGcd (a b : ℤ) : ℤ := (Int.gcd a b : ℤ)

/-- `lcm(a, b) = Math.abs(a * b) / gcd(a, b)` from `fraction.js`.
(When `a = b = 0` JavaScript produces `NaN`; that case is unreachable
from the engine and the model returns `0`.) -/
def jsLcm (a b : ℤ) : ℤ := ((a * b).natAbs : ℤ) / jsGcd a b

/-- The `Fraction` data: fields `numerator`/`denominator` of the class in
`fraction.js`.  Instances built by the constructor with `autoSimplify`
are reduced with a positive denominator, but the raw record does not
enforce this. -/
structure Fraction where
  numerator : ℤ
  denominator : ℤ
  deriving DecidableEq, Repr

/-- The `Fraction` constructor
`constructor(numerator, denominator = 1, autoSimplify = true)`:
throws on a denominator strictly equal to `0`, then rounds both arguments
to integers, moves a negative denominator's sign to the numerator, and
(by default) divides both parts by their gcd.  Note the zero test happens
BEFORE rounding, so a non-integer denominator that rounds to `0` slips
through.  (When numerator and denominator are both `0` after rounding,
JavaScript produces `NaN` fields; the model's `0 / 0 = 0` stands in for
that unreachable case.) -/
def Fraction.create (numerator denominator : JsNum) (autoSimplify : Bool) :
    Except String Fraction :=
  if denominator.isZero then
    .error "Division by zero: denominator cannot be 0"
  else
    let n0 : ℤ := jsRound numerator
    let d0 : ℤ := jsRound denominator
    let n1 : ℤ := if d0 < 0 then -n0 else n0
    let d1 : ℤ := if d0 < 0 then -d0 else d0
    if autoSimplify then
      let divisor : ℤ := jsGcd ((n1.natAbs : ℤ)) d1
      .ok ⟨n1 / divisor, d1 / divisor⟩
    else
      .ok ⟨n1, d1⟩

/-- `isZero()`. -/
def Fraction.isZero (f : Fraction) : Bool := f.numerator == 0

/-- `isOne()` — note the source compares `numerator === denominator`. -/
def Fraction.isOne (f : Fraction) : Bool := f.numerator == f.denominator

/-- `isInteger()`. -/
def Fraction.isInteger (f : Fraction) : Bool := f.denominator == 1

/-- `isNegative()`. -/
def Fraction.isNegative (f : Fraction) : Bool := f.numerator < 0

/-- `isPositive()`. -/
def Fraction.isPositive (f : Fraction) : Bool := f.numerator > 0

/-- `abs()` = `new Fraction(Math.abs(numerator), denominator)`. -/
def Fraction.abs (f : Fraction) : Except String Fraction :=
  Fraction.create (JsNum.ofInt ((f.numerator.natAbs : ℤ))) (JsNum.ofInt f.denominator) true

/-- `negate()` = `new Fraction(-numerator, denominator)`. -/
def Fraction.negate (f : Fraction) : Except String Fraction :=
  Fraction.create (JsNum.ofInt (-f.numerator)) (JsNum.ofInt f.denominator) true

/-- `reciprocal()`: throws on a zero numerator, else
`new Fraction(denominator, numerator)`. -/
def Fraction.reciprocal (f : Fraction) : Except String Fraction :=
  if f.numerator == 0 then .error "Cannot get reciprocal of zero"
  else Fraction.create (JsNum.ofInt f.denominator) (JsNum.ofInt f.numerator) true

/-- `add(other)`: common denominator `lcm`, scaled numerators, then the
constructor (which re-simplifies). -/
def Fraction.add (a b : Fraction) : Except String Fraction :=
  let commonDenom := jsLcm a.denominator b.denominator
  let thisMultiplier := commonDenom / a.denominator
  let otherMultiplier := commonDenom / b.denominator
  Fraction.create
    (JsNum.ofInt (a.numerator * thisMultiplier + b.numerator * otherMultiplier))
    (JsNum.ofInt commonDenom) true

/-- `subtract(other)` = `this.add(other.negate())`. -/
def Fraction.subtract (a b : Fraction) : Except String Fraction :=
  match b.negate with
  | .error e => .error e
  | .ok nb => a.add nb

/-- `multiply(other)`. -/
def Fraction.multiply (a b : Fraction) : Except String Fraction :=
  Fraction.create (JsNum.ofInt (a.numerator * b.numerator))
    (JsNum.ofInt (a.denominator * b.denominator)) true

/-- `divide(other)`: throws on a zero divisor, else multiplies by the
reciprocal. -/
def Fraction.divide (a b : Fraction) : Except String Fraction :=
  if b.isZero then .error "Division by zero"
  else
    match b.reciprocal with
    | .error e => .error e
    | .ok r => a.multiply r

/-- Positive-exponent core of `pow`:
`new Fraction(numerator ** e, denominator ** e)`. -/
def Fraction.powPosInt (f : Fraction) (e : ℕ) : Except String Fraction :=
  Fraction.create (JsNum.ofInt (f.numerator ^ e)) (JsNum.ofInt (f.denominator ^ e)) true

/-- `pow(exponent)`: rejects non-integer exponents, returns `1/1` for
exponent `0`, and for a negative exponent takes the reciprocal first
(unfolding the source's one-step recursion `reciprocal().pow(-e)`). -/
def Fraction.pow (f : Fraction) (exponent : JsNum) : Except String Fraction :=
  if !exponent.isInt then .error "Exponent must be an integer"
  else if exponent.toInt = 0 then Fraction.create (JsNum.ofInt 1) (JsNum.ofInt 1) true
  else if exponent.toInt < 0 then
    match f.reciprocal with
    | .error e => .error e
    | .ok r => r.powPosInt (-exponent.toInt).toNat
  else f.powPosInt exponent.toInt.toNat

/-- `equals(other)`: component-wise comparison. -/
def Fraction.equals (a b : Fraction) : Bool :=
  a.numerator == b.numerator && a.denominator == b.denominator

/-- `toDecimal()` = `numerator / denominator` as a JavaScript number. -/
def Fraction.toDecimal (f : Fraction) : JsNum := ⟨f.numerator, f.denominator⟩

/-- `toString()`: bare integer when the denominator is `1`, else `n/d`. -/
def Fraction.toString (f : Fraction) : String :=
  if f.denominator == 1 then ToString.toString f.numerator
  else ToString.toString f.numerator ++ "/" ++ ToString.toString f.denominator

/-- `toLatex()`: `\frac{n}{d}` with the sign moved in front. -/
def Fraction.toLatex (f : Fraction) : String :=
  if f.denominator == 1 then ToString.toString f.numerator
  else if f.numerator < 0 then
    "-\\frac\x7b" ++ ToString.toString ((f.numerator.natAbs : ℤ)) ++ "\x7d\x7b" ++
      ToString.toString f.denominator ++ "\x7d"
  else
    "\\frac\x7b" ++ ToString.toString f.numerator ++ "\x7d\x7b" ++
      ToString.toString f.denominator ++ "\x7d"

/-- The record produced by `toJSON()`. -/
structure FracJson where
  numerator : ℤ
  denominator : ℤ
  string : String
  latex : String
  deriving DecidableEq, Repr

/-- `toJSON()`. -/
def Fraction.toJSON (f : Fraction) : FracJson :=
  ⟨f.numerator, f.denominator, f.toString, f.toLatex⟩

/-- `clone()` = `new Fraction(numerator, denominator)`. -/
def Fraction.clone (f : Fraction) : Except String Fraction :=
  Fraction.create (JsNum.ofInt f.numerator) (JsNum.ofInt f.denominator) true

/-- Analysis predicate (not part of the source): a `Fraction` is in the
class invariant's normal form — positive denominator, reduced. -/
def Fraction.valid (f : Fraction) : Prop :=
  0 < f.denominator ∧ Int.gcd f.numerator f.denominator = 1

instance (f : Fraction) : Decidable f.valid := by
  unfold Fraction.valid; infer_instance

/-- Analysis function (not part of the source): the rational value a
`Fraction` represents. -/
def Fraction.val (f : Fraction) : ℚ := (f.numerator : ℚ) / (f.denominator : ℚ)

example : Fraction.create (JsNum.ofInt 6) (JsNum.ofInt 8) true = .ok ⟨3, 4⟩ := rfl
example : Fraction.create (JsNum.ofInt 3) ⟨2, 5⟩ true = .ok ⟨1, 0⟩ := rfl
example : Fraction.create (JsNum.ofInt 1) (JsNum.ofInt 0) true =
    .error "Division by zero: denominator cannot be 0" := rfl
example : Fraction.add ⟨1, 2⟩ ⟨1, 3⟩ = .ok ⟨5, 6⟩ := rfl
example : Fraction.create (JsNum.ofInt 3) (JsNum.ofInt (-6)) true = .ok ⟨-1, 2⟩ := rfl

/-! ## Lexer (`parser.js`, class `Lexer`) -/

/-- JavaScript `\s` for the characters this engine can meet. -/
def isSpaceJs (c : Char) : Bool :=
  c == ' ' || c == '\t' || c == '\n' || c == '\r' || c == '\x0b' || c == '\x0c'

/-- `input.trim()`. -/
def trimJs (cs : List Char) : List Char :=
  ((cs.dropWhile isSpaceJs).reverse.dropWhile isSpaceJs).reverse

/-- Numeric value of a digit run. -/
def natOfDigits (cs : List Char) : ℕ :=
  cs.foldl (fun acc c => 10 * acc + (c.toNat - '0'.toNat)) 0

/-- `parseFloat` on a run of digits and dots (as collected by
`readNumber`): integer part, then the digits after the first dot. -/
def parseFloatJs (cs : List Char) : JsNum :=
  let intPart := cs.takeWhile Char.isDigit
  let r := cs.dropWhile Char.isDigit
  match r with
  | '.' :: r2 =>
    let fracPart := r2.takeWhile Char.isDigit
    ⟨(natOfDigits intPart : ℤ) * 10 ^ fracPart.length + (natOfDigits fracPart : ℤ),
     (10 : ℤ) ^ fracPart.length⟩
  | _ => ⟨(natOfDigits intPart : ℤ), 1⟩

/-- `readNumber()`: consume `[\d.]*` and `parseFloat` it. -/
def readNumber (cs : List Char) : JsNum × List Char :=
  (parseFloatJs (cs.takeWhile fun c => c.isDigit || c == '.'),
   cs.dropWhile fun c => c.isDigit || c == '.')

/-- `readWord()`: consume `[a-zA-Z]*`, lower-cased. -/
def readWord (cs : List Char) : String × List Char :=
  (String.mk ((cs.takeWhile Char.isAlpha).map Char.toLower), cs.dropWhile Char.isAlpha)

/-- Tokens produced by the lexer.  `var` is `TokenType.VARIABLE`
(`variable` is a Lean keyword); the `raw` display text of the source
tokens carries no behaviour and is not modelled. -/
inductive Token where
  | number (value : Fraction)
  | fraction (value : Fraction)
  | var (name : String)
  | operator (value : Char)
  | lparen
  | rparen
  | equals
  | power
  | eof
  deriving DecidableEq, Repr

/-- The token-type name, as used in parser error messages. -/
def Token.typeName : Token → String
  | .number _ => "NUMBER"
  | .fraction _ => "FRACTION"
  | .var _ => "VARIABLE"
  | .operator _ => "OPERATOR"
  | .lparen => "LPAREN"
  | .rparen => "RPAREN"
  | .equals => "EQUALS"
  | .power => "POWER"
  | .eof => "EOF"

/-- One pass of `Lexer.tokenize()`'s while-loop, with fuel (each
iteration consumes at least one character, so `length + 1` suffices).
The number branch skips whitespace after the literal, and again after a
`/`, before deciding between a single FRACTION token and
NUMBER + OPERATOR('/'); `new Fraction(num, denom)` inside the loop can
throw.  Keyword branches mirror the source order; unknown characters are
skipped. -/
def tokenizeAux : ℕ → List Char → List Token → Except String (List Token)
  | 0, _, _ => .error "lexer fuel exhausted"
  | fuel + 1, cs0, acc =>
    let cs := cs0.dropWhile isSpaceJs
    match cs with
    | [] => .ok (acc ++ [Token.eof])
    | c :: rest =>
      if c.isDigit then
        let (num, r1) := readNumber (c :: rest)
        let r2 := r1.dropWhile isSpaceJs
        match r2 with
        | '/' :: r3 =>
          let r4 := r3.dropWhile isSpaceJs
          if (r4.headD ' ').isDigit then
            let (denom, r5) := readNumber r4
            match Fraction.create num denom true with
            | .error e => .error e
            | .ok f => tokenizeAux fuel r5 (acc ++ [Token.fraction f])
          else
            match Fraction.create num (JsNum.ofInt 1) true with
            | .error e => .error e
            | .ok f => tokenizeAux fuel r4 (acc ++ [Token.number f, Token.operator '/'])
        | _ =>
          match Fraction.create num (JsNum.ofInt 1) true with
          | .error e => .error e
          | .ok f => tokenizeAux fuel r2 (acc ++ [Token.number f])
      else if c.isAlpha then
        let (word, r1) := readWord (c :: rest)
        if word == "over" || word == "bar" || word == "divided" then
          if word == "divided" then
            -- reads the next word; pushes '/' whether or not it is "by"
            -- (a non-"by" word is consumed and dropped, as in the source)
            let (_, r3) := readWord (r1.dropWhile isSpaceJs)
            tokenizeAux fuel r3 (acc ++ [Token.operator '/'])
          else tokenizeAux fuel r1 (acc ++ [Token.operator '/'])
        else if word == "plus" then tokenizeAux fuel r1 (acc ++ [Token.operator '+'])
        else if word == "minus" then tokenizeAux fuel r1 (acc ++ [Token.operator '-'])
        else if word == "times" || word == "multiplied" then
          if word == "multiplied" then
            -- skips the following word ("by" or anything else)
            let (_, r3) := readWord (r1.dropWhile isSpaceJs)
            tokenizeAux fuel r3 (acc ++ [Token.operator '*'])
          else tokenizeAux fuel r1 (acc ++ [Token.operator '*'])
        else if word == "equals" || word == "is" then
          tokenizeAux fuel r1 (acc ++ [Token.equals])
        else if word == "squared" then
          -- pushes OPERATOR('^') (not POWER) and NUMBER 2
          tokenizeAux fuel r1 (acc ++ [Token.operator '^', Token.number ⟨2, 1⟩])
        else if word == "cubed" then
          tokenizeAux fuel r1 (acc ++ [Token.operator '^', Token.number ⟨3, 1⟩])
        else
          -- single- and multi-letter words both become VARIABLE tokens
          tokenizeAux fuel r1 (acc ++ [Token.var word])
      else
        match c with
        | '+' => tokenizeAux fuel rest (acc ++ [Token.operator '+'])
        | '-' => tokenizeAux fuel rest (acc ++ [Token.operator '-'])
        | '*' => tokenizeAux fuel rest (acc ++ [Token.operator '*'])
        | '×' => tokenizeAux fuel rest (acc ++ [Token.operator '*'])
        | '·' => tokenizeAux fuel rest (acc ++ [Token.operator '*'])
        | '÷' => tokenizeAux fuel rest (acc ++ [Token.operator '/'])
        | '/' => tokenizeAux fuel rest (acc ++ [Token.operator '/'])
        | '^' => tokenizeAux fuel rest (acc ++ [Token.power])
        | '=' => tokenizeAux fuel rest (acc ++ [Token.equals])
        | '(' => tokenizeAux fuel rest (acc ++ [Token.lparen])
        | ')' => tokenizeAux fuel rest (acc ++ [Token.rparen])
        | _ => tokenizeAux fuel rest acc  -- skip unknown characters

/-- `new Lexer(input).tokenize()`: trims the input, runs the loop, and
ends with an EOF token. -/
def tokenize (input : String) : Except String (List Token) :=
  let cs := trimJs input.toList
  tokenizeAux (cs.length + 1) cs []

/-! ## Parser (`parser.js`, class `Parser`) -/

/-- AST nodes: `Number`, `Variable`, `UnaryOp`, `BinaryOp`, `Equation`.
Number payloads are always `Fraction` instances in this engine. -/
inductive AST where
  | num (value : Fraction)
  | var (name : String)
  | unaryOp (op : Char) (operand : AST)
  | binOp (op : Char) (left : AST) (right : AST)
  | equation (left : AST) (right : AST)
  deriving DecidableEq, Repr

/-- The `type` string of an AST node, as used in error messages. -/
def AST.typeName : AST → String
  | .num _ => "Number"
  | .var _ => "Variable"
  | .unaryOp _ _ => "UnaryOp"
  | .binOp _ _ _ => "BinaryOp"
  | .equation _ _ => "Equation"

mutual

/-- `parsePrimary()`: unary minus, number/fraction, variable, or a
parenthesised expression; otherwise "Unexpected token".  Returns the node
and the unconsumed tokens. -/
def parsePrimary : ℕ → List Token → Except String (AST × List Token)
  | 0, _ => .error "parser fuel exhausted"
  | fuel + 1, ts =>
    match ts with
    | Token.operator '-' :: rest =>
      match parsePrimary fuel rest with
      | .error e => .error e
      | .ok (expr, r) => .ok (AST.unaryOp '-' expr, r)
    | Token.number f :: rest => .ok (AST.num f, rest)
    | Token.fraction f :: rest => .ok (AST.num f, rest)
    | Token.var name :: rest => .ok (AST.var name, rest)
    | Token.lparen :: rest =>
      match parseExpression fuel rest with
      | .error e => .error e
      | .ok (expr, r) =>
        match r with
        | Token.rparen :: r2 => .ok (expr, r2)
        | t :: _ => .error ("Expected RPAREN but got " ++ t.typeName)
        | [] => .error "Expected RPAREN but got none"
    | t :: _ => .error ("Unexpected token: " ++ t.typeName)
    | [] => .error "Unexpected token: none"

/-- `parseFactor()`: a primary, then ONE optional `^` (right-recursive),
then the implicit-multiplication loop.  Note the power test runs before
the loop, so an exponent appearing after an implicit product is not
consumed here. -/
def parseFactor : ℕ → List Token → Except String (AST × List Token)
  | 0, _ => .error "parser fuel exhausted"
  | fuel + 1, ts =>
    match parsePrimary fuel ts with
    | .error e => .error e
    | .ok (left, r) =>
      match r with
      | Token.power :: r2 =>
        match parseFactor fuel r2 with
        | .error e => .error e
        | .ok (right, r3) => parseFactorLoop fuel (AST.binOp '^' left right) r3
      | _ => parseFactorLoop fuel left r

/-- The implicit-multiplication while-loop of `parseFactor()`: keeps
multiplying while the next token is a VARIABLE, a NUMBER while the
accumulated node is a Variable, or an LPAREN. -/
def parseFactorLoop : ℕ → AST → List Token → Except String (AST × List Token)
  | 0, _, _ => .error "parser fuel exhausted"
  | fuel + 1, left, ts =>
    let startLoop : Bool :=
      match ts with
      | Token.var _ :: _ => true
      | Token.number _ :: _ => match left with | AST.var _ => true | _ => false
      | Token.lparen :: _ => true
      | _ => false
    if startLoop then
      match parsePrimary fuel ts with
      | .error e => .error e
      | .ok (right, r) => parseFactorLoop fuel (AST.binOp '*' left right) r
    else .ok (left, ts)

/-- `parseTerm()`: factors joined by `*` and `/`. -/
def parseTerm : ℕ → List Token → Except String (AST × List Token)
  | 0, _ => .error "parser fuel exhausted"
  | fuel + 1, ts =>
    match parseFactor fuel ts with
    | .error e => .error e
    | .ok (left, r) => parseTermLoop fuel left r

/-- The `*` / `/` while-loop of `parseTerm()`. -/
def parseTermLoop : ℕ → AST → List Token → Except String (AST × List Token)
  | 0, _, _ => .error "parser fuel exhausted"
  | fuel + 1, left, ts =>
    match ts with
    | Token.operator '*' :: rest =>
      match parseFactor fuel rest with
      | .error e => .error e
      | .ok (right, r) => parseTermLoop fuel (AST.binOp '*' left right) r
    | Token.operator '/' :: rest =>
      match parseFactor fuel rest with
      | .error e => .error e
      | .ok (right, r) => parseTermLoop fuel (AST.binOp '/' left right) r
    | _ => .ok (left, ts)

/-- `parseExpression()`: terms joined by `+` and `-`. -/
def parseExpression : ℕ → List Token → Except String (AST × List Token)
  | 0, _ => .error "parser fuel exhausted"
  | fuel + 1, ts =>
    match parseTerm fuel ts with
    | .error e => .error e
    | .ok (left, r) => parseExpressionLoop fuel left r

/-- The `+` / `-` while-loop of `parseExpression()`. -/
def parseExpressionLoop : ℕ → AST → List Token → Except String (AST × List Token)
  | 0, _, _ => .error "parser fuel exhausted"
  | fuel + 1, left, ts =>
    match ts with
    | Token.operator '+' :: rest =>
      match parseTerm fuel rest with
      | .error e => .error e
      | .ok (right, r) => parseExpressionLoop fuel (AST.binOp '+' left right) r
    | Token.operator '-' :: rest =>
      match parseTerm fuel rest with
      | .error e => .error e
      | .ok (right, r) => parseExpressionLoop fuel (AST.binOp '-' left right) r
    | _ => .ok (left, ts)

/-- `parseEquation()`: an expression, optionally `=` and a second
expression. -/
def parseEquation : ℕ → List Token → Except String (AST × List Token)
  | 0, _ => .error "parser fuel exhausted"
  | fuel + 1, ts =>
    match parseExpression fuel ts with
    | .error e => .error e
    | .ok (left, r) =>
      match r with
      | Token.equals :: rest =>
        match parseExpression fuel rest with
        | .error e => .error e
        | .ok (right, r2) => .ok (AST.equation left right, r2)
      | _ => .ok (left, r)

end

/-- `new Parser(tokens).parse()`, keeping the unconsumed tokens visible.
The fuel bound is generous: every recursive call consumes fuel and the
recursion depth is bounded by a small multiple of the token count. -/
def parseTokens (ts : List Token) : Except String (AST × List Token) :=
  parseEquation (4 * ts.length + 16) ts

/-- `parse(input)` from `parser.js`: lex then parse; the unconsumed
token tail is discarded without any check. -/
def parseString (input : String) : Except String AST :=
  match tokenize input with
  | .error e => .error e
  | .ok ts =>
    match parseTokens ts with
    | .error e => .error e
    | .ok (ast, _) => .ok ast

example : tokenize "2 / 3" = .ok [Token.fraction ⟨2, 3⟩, Token.eof] := rfl
example : tokenize "2/x" =
    .ok [Token.number ⟨2, 1⟩, Token.operator '/', Token.var "x", Token.eof] := rfl
example : parseString "2x^2" = .ok (AST.binOp '*' (AST.num ⟨2, 1⟩) (AST.var "x")) := rfl
example : parseTokens [Token.number ⟨2, 1⟩, Token.var "x", Token.power,
    Token.number ⟨2, 1⟩, Token.eof] =
    .ok (AST.binOp '*' (AST.num ⟨2, 1⟩) (AST.var "x"),
         [Token.power, Token.number ⟨2, 1⟩, Token.eof]) := rfl

/-! ## Classifier and `parseFraction` (`parser.js`, module level) -/

/-- JavaScript `\w` (word character), for `\b` boundaries. -/
def wordCharJs (c : Char) : Bool := c.isAlpha || c.isDigit || c == '_'

/-- Case-insensitively strip a (lower-case) literal pattern from the
front of the input, returning the remainder. -/
def stripCaseless : List Char → List Char → Option (List Char)
  | [], cs => some cs
  | _ :: _, [] => none
  | p :: ps, c :: cs => if c.toLower == p then stripCaseless ps cs else none

/-- Scan every position of the input, with the previous character kept
for `\b`: the predicate fires only at positions preceded by a non-word
character (or the start). -/
def scanBoundary (pred : List Char → Bool) : Option Char → List Char → Bool
  | _, [] => false
  | prev, c :: rest =>
    (match prev with
     | none => pred (c :: rest)
     | some p => !wordCharJs p && pred (c :: rest)) ||
    scanBoundary pred (some c) rest

/-- Position match for `/\bequals?\b/i` (the leading `\b` is handled by
`scanBoundary`): "equal", then a greedy optional "s", each followed by a
word boundary (with regex backtracking semantics). -/
def equalsWordAt (cs : List Char) : Bool :=
  match stripCaseless "equal".toList cs with
  | none => false
  | some r =>
    match r with
    | [] => true
    | c :: r2 => if c.toLower == 's' then (match r2 with | [] => true | d :: _ => !wordCharJs d)
                 else !wordCharJs c

/-- Position match for `/\bis\b.*\d/i`: "is", a word boundary, then a
digit later on the same line (`.` does not cross a newline). -/
def isWordAt (cs : List Char) : Bool :=
  match stripCaseless "is".toList cs with
  | none => false
  | some r =>
    (match r with | [] => true | c :: _ => !wordCharJs c) &&
    ((r.takeWhile fun c => c != '\n' && c != '\r').any Char.isDigit)

/-- `isEquation(input)`: contains `=`, or `/\bequals?\b/i`, or
`/\bis\b.*\d/i`. -/
def isEquationL (cs : List Char) : Bool :=
  cs.contains '=' || scanBoundary equalsWordAt none cs || scanBoundary isWordAt none cs

/-- Existential (unanchored) match: some suffix satisfies the
position predicate. -/
def scanAny (pred : List Char → Bool) (cs : List Char) : Bool :=
  cs.tails.any pred

/-- Position match for `/\d+\s*\/\s*\d+/`. -/
def fracPatSlash (cs : List Char) : Bool :=
  match cs with
  | c :: _ =>
    c.isDigit &&
    (let r := (cs.dropWhile Char.isDigit).dropWhile isSpaceJs
     match r with
     | '/' :: r2 => ((r2.dropWhile isSpaceJs).headD ' ').isDigit
     | _ => false)
  | [] => false

/-- Position match for `/\d+\s+(?:over|bar)\s+\d+/i`. -/
def fracPatWord (cs : List Char) : Bool :=
  match cs with
  | c :: _ =>
    c.isDigit &&
    (let r := cs.dropWhile Char.isDigit
     (isSpaceJs (r.headD 'x')) &&
     (let r2 := r.dropWhile isSpaceJs
      match stripCaseless "over".toList r2 <|> stripCaseless "bar".toList r2 with
      | some r3 =>
        (isSpaceJs (r3.headD 'x')) && ((r3.dropWhile isSpaceJs).headD ' ').isDigit
      | none => false))
  | [] => false

/-- Position match for `/\d+\s+\d+\s*\/\s*\d+/` (mixed numbers). -/
def fracPatMixed (cs : List Char) : Bool :=
  match cs with
  | c :: _ =>
    c.isDigit &&
    (let r := cs.dropWhile Char.isDigit
     (isSpaceJs (r.headD 'x')) &&
     (let r2 := r.dropWhile isSpaceJs
      (r2.headD ' ').isDigit &&
      (let r3 := (r2.dropWhile Char.isDigit).dropWhile isSpaceJs
       match r3 with
       | '/' :: r4 => ((r4.dropWhile isSpaceJs).headD ' ').isDigit
       | _ => false)))
  | [] => false

/-- `isFractionExpression(input)`. -/
def isFractionExpressionL (cs : List Char) : Bool :=
  scanAny fracPatSlash cs || scanAny fracPatWord cs || scanAny fracPatMixed cs

/-- Position match for
`/\d+\s*(?:plus|minus|times|divided|over|bar)\s*\d+/i`. -/
def arithWordPat (cs : List Char) : Bool :=
  match cs with
  | c :: _ =>
    c.isDigit &&
    (let r := (cs.dropWhile Char.isDigit).dropWhile isSpaceJs
     let tryWord : List Char → Bool := fun w =>
       match stripCaseless w r with
       | some r2 => ((r2.dropWhile isSpaceJs).headD ' ').isDigit
       | none => false
     tryWord "plus".toList || tryWord "minus".toList || tryWord "times".toList ||
     tryWord "divided".toList || tryWord "over".toList || tryWord "bar".toList)
  | [] => false

/-- `isArithmeticExpression(input)`: the first regex
`/[\d\s+\-*×÷/^()]+/` just asks for one character of the class, so this
predicate is true for almost any non-empty input containing a digit,
whitespace or operator character. -/
def isArithmeticExpressionL (cs : List Char) : Bool :=
  cs.any (fun c => c.isDigit || isSpaceJs c ||
    c == '+' || c == '-' || c == '*' || c == '×' || c == '÷' ||
    c == '/' || c == '^' || c == '(' || c == ')') ||
  scanAny arithWordPat cs

/-- One step of the global replace
`.replace(/(?:plus|minus|times|divided|over|bar|equals?|is)/gi, '')`:
try the alternatives in order at the current position and return the
remainder after the first (greedy) match. -/
def matchOpWord (withEqualsIs : Bool) (cs : List Char) : Option (List Char) :=
  (stripCaseless "plus".toList cs).orElse fun _ =>
  (stripCaseless "minus".toList cs).orElse fun _ =>
  (stripCaseless "times".toList cs).orElse fun _ =>
  (stripCaseless "divided".toList cs).orElse fun _ =>
  (stripCaseless "over".toList cs).orElse fun _ =>
  (stripCaseless "bar".toList cs).orElse fun _ =>
  if withEqualsIs then
    (match stripCaseless "equal".toList cs with
     | some r => some (match r with
         | c :: r2 => if c.toLower == 's' then r2 else c :: r2
         | [] => ([] : List Char))
     | none => none).orElse fun _ =>
    stripCaseless "is".toList cs
  else none

/-- The global replace itself, scanning left to right (fuelled: every
step consumes at least one character). -/
def stripOpWordsAux (withEqualsIs : Bool) : ℕ → List Char → List Char
  | 0, cs => cs
  | _ + 1, [] => []
  | fuel + 1, c :: rest =>
    match matchOpWord withEqualsIs (c :: rest) with
    | some r => stripOpWordsAux withEqualsIs fuel r
    | none => c :: stripOpWordsAux withEqualsIs fuel rest

/-- Remove the recognised operator words from the input. -/
def stripOpWords (withEqualsIs : Bool) (cs : List Char) : List Char :=
  stripOpWordsAux withEqualsIs (cs.length + 1) cs

/-- `detectExpressionType(input)`: trim, then route through
`isEquation` / `isFractionExpression` / `isArithmeticExpression`, with a
latin-letter test (after stripping operator words) choosing the
`algebraic_*` variants. -/
def detectExpressionType (input : String) : String :=
  let trimmed := trimJs input.toList
  if isEquationL trimmed then
    if (stripOpWords true trimmed).any Char.isAlpha then "algebraic_equation"
    else "arithmetic_equation"
  else if isFractionExpressionL trimmed then "fraction"
  else if isArithmeticExpressionL trimmed then
    if (stripOpWords false trimmed).any Char.isAlpha then "algebraic_expression"
    else "arithmetic"
  else "unknown"

/-- Read an optional minus sign and a non-empty digit run, as the
anchored group `(-?\d+)` with `parseInt`. -/
def readSignedInt (cs : List Char) : Option (ℤ × List Char) :=
  match cs with
  | '-' :: r =>
    if (r.headD ' ').isDigit then
      some (-(natOfDigits (r.takeWhile Char.isDigit) : ℤ), r.dropWhile Char.isDigit)
    else none
  | _ =>
    if (cs.headD ' ').isDigit then
      some ((natOfDigits (cs.takeWhile Char.isDigit) : ℤ), cs.dropWhile Char.isDigit)
    else none

/-- Read a non-empty digit run, as the anchored group `(\d+)`. -/
def readNatGroup (cs : List Char) : Option (ℕ × List Char) :=
  if (cs.headD ' ').isDigit then
    some (natOfDigits (cs.takeWhile Char.isDigit), cs.dropWhile Char.isDigit)
  else none

/-- Anchored match `^(-?\d+)\s*\/\s*(\d+)$`. -/
def matchSlash (cs : List Char) : Option (ℤ × ℕ) :=
  match readSignedInt cs with
  | none => none
  | some (n, r1) =>
    match r1.dropWhile isSpaceJs with
    | '/' :: r2 =>
      match readNatGroup (r2.dropWhile isSpaceJs) with
      | some (d, r3) => if r3.isEmpty then some (n, d) else none
      | none => none
    | _ => none

/-- Anchored match `^(-?\d+)\s+(?:over|bar)\s+(\d+)$/i`. -/
def matchNatural (cs : List Char) : Option (ℤ × ℕ) :=
  match readSignedInt cs with
  | none => none
  | some (n, r1) =>
    if isSpaceJs (r1.headD 'x') then
      let r2 := r1.dropWhile isSpaceJs
      match stripCaseless "over".toList r2 <|> stripCaseless "bar".toList r2 with
      | some r3 =>
        if isSpaceJs (r3.headD 'x') then
          match readNatGroup (r3.dropWhile isSpaceJs) with
          | some (d, r4) => if r4.isEmpty then some (n, d) else none
          | none => none
        else none
      | none => none
    else none

/-- Anchored match `^(-?\d+)\s+(\d+)\s*\/\s*(\d+)$` (mixed number). -/
def matchMixed (cs : List Char) : Option (ℤ × ℕ × ℕ) :=
  match readSignedInt cs with
  | none => none
  | some (whole, r1) =>
    if isSpaceJs (r1.headD 'x') then
      match readNatGroup (r1.dropWhile isSpaceJs) with
      | some (n, r2) =>
        match r2.dropWhile isSpaceJs with
        | '/' :: r3 =>
          match readNatGroup (r3.dropWhile isSpaceJs) with
          | some (d, r4) => if r4.isEmpty then some (whole, n, d) else none
          | none => none
        | _ => none
      | none => none
    else none

/-- Anchored match `^(-?\d+)$`. -/
def matchInt (cs : List Char) : Option ℤ :=
  match readSignedInt cs with
  | some (n, r) => if r.isEmpty then some n else none
  | none => none

/-- `parseFraction(input)` from `parser.js`: the four anchored patterns
in order, else a thrown error quoting the (untrimmed) input. -/
def parseFraction (input : String) : Except String Fraction :=
  let str := trimJs input.toList
  match matchSlash str with
  | some (n, d) => Fraction.create (JsNum.ofInt n) (JsNum.ofInt (d : ℤ)) true
  | none =>
  match matchNatural str with
  | some (n, d) => Fraction.create (JsNum.ofInt n) (JsNum.ofInt (d : ℤ)) true
  | none =>
  match matchMixed str with
  | some (whole, n, d) =>
    let sign : ℤ := if whole < 0 then -1 else 1
    Fraction.create (JsNum.ofInt (sign * ((whole.natAbs : ℤ) * (d : ℤ) + (n : ℤ))))
      (JsNum.ofInt (d : ℤ)) true
  | none =>
  match matchInt str with
  | some n => Fraction.create (JsNum.ofInt n) (JsNum.ofInt 1) true
  | none => .error ("Cannot parse fraction from: \"" ++ input ++ "\"")

example : detectExpressionType "1/3 + 1/3" = "fraction" := rfl
example : detectExpressionType "2x + 1 = 5" = "algebraic_equation" := rfl
example : detectExpressionType "3/4" = "fraction" := rfl
example : detectExpressionType "2 + 2" = "arithmetic" := rfl
example : parseFraction "6/8" = .ok ⟨3, 4⟩ := rfl
example : parseFraction "2 over 3" = .ok ⟨2, 3⟩ := rfl
example : parseFraction "1 2/3" = .ok ⟨5, 3⟩ := rfl
example : parseFraction "1/0" = .error "Division by zero: denominator cannot be 0" := rfl
example : parseFraction "1/3 + 1/3" =
    .error "Cannot parse fraction from: \"1/3 + 1/3\"" := rfl

/-! ## Solver (`solver.js`) -/

/-- A `Step` record: `{description, latex, stepNumber}` (`latex` is
`null`/absent when not given). -/
structure Step where
  description : String
  latex : Option String
  stepNumber : ℕ
  deriving DecidableEq, Repr

/-- The `result` part of a Solution. -/
structure SolResult where
  value : String
  latex : String
  deriving DecidableEq, Repr

/-- A `Solution`: question, steps, result, and (for equations) the
optional bound variable name and solution record.  `varName` models the
source's `variable` field (`variable` is a Lean keyword). -/
structure Solution where
  question : String
  steps : List Step
  result : SolResult
  varName : Option String
  solution : Option FracJson
  deriving DecidableEq, Repr

/-- The per-call `StepBuilder`. -/
structure StepBuilder where
  question : String
  steps : List Step
  deriving DecidableEq, Repr

/-- `addStep(description, latex = null)`: appends with a 1-based step
number. -/
def StepBuilder.addStep (sb : StepBuilder) (description : String)
    (latex : Option String) : StepBuilder :=
  { sb with steps := sb.steps ++ [⟨description, latex, sb.steps.length + 1⟩] }

/-- `build(result, resultLatex = null)`: the result latex falls back to
the result text when null (or empty, `||` being a truthiness test). -/
def StepBuilder.build (sb : StepBuilder) (result : String)
    (resultLatex : Option String) : Solution :=
  ⟨sb.question, sb.steps,
   ⟨result,
    match resultLatex with
    | none => result
    | some s => if s == "" then result else s⟩,
   none, none⟩

/-- The `catch` block shared by `evaluateArithmetic` and
`solveLinearEquation`: narrate `Error: <message>` and build an `Error`
result from the steps accumulated so far. -/
def errSol (sb : StepBuilder) (msg : String) : Solution :=
  (sb.addStep ("Error: " ++ msg) none).build "Error" (some "Error")

/-- `getOpSymbol(op)`. -/
def getOpSymbol (op : Char) : String :=
  match op with
  | '+' => "+"
  | '-' => "-"
  | '*' => "\\times"
  | '/' => "\\div"
  | '^' => "^"
  | _ => String.mk [op]

/-- `astToLatex(node)`. -/
def astToLatex : AST → String
  | .num f => f.toLatex
  | .var name => name
  | .unaryOp op operand =>
    if op = '-' then "-" ++ astToLatex operand else astToLatex operand
  | .binOp op l r =>
    let leftLatex := astToLatex l
    let rightLatex := astToLatex r
    match op with
    | '+' => leftLatex ++ " + " ++ rightLatex
    | '-' => leftLatex ++ " - " ++ rightLatex
    | '*' =>
      match l, r with
      | .num _, .var _ => leftLatex ++ rightLatex
      | _, _ => leftLatex ++ " \\times " ++ rightLatex
    | '/' => "\\frac\x7b" ++ leftLatex ++ "\x7d\x7b" ++ rightLatex ++ "\x7d"
    | '^' => "\x7b" ++ leftLatex ++ "\x7d^\x7b" ++ rightLatex ++ "\x7d"
    | _ => leftLatex ++ " " ++ String.mk [op] ++ " " ++ rightLatex
  | .equation l r => astToLatex l ++ " = " ++ astToLatex r

/-- The input accepted by `simplifyFraction`: a string or an existing
`Fraction` instance. -/
inductive FracInput where
  | str (s : String)
  | frac (f : Fraction)
  deriving DecidableEq, Repr

/-- `simplifyFraction(input)` from `solver.js`.  NOTE: it has no
try/catch, so a failure of `parseFraction`/`clone` (or of the inner
constructor) escapes to the caller. -/
def simplifyFraction (input : FracInput) : Except String Solution :=
  let question := match input with | .str s => s | .frac f => f.toString
  let sb : StepBuilder := ⟨question, []⟩
  match (match input with | .frac f => f.clone | .str s => parseFraction s) with
  | .error e => .error e
  | .ok frac =>
    let originalNum := frac.numerator
    let originalDenom := frac.denominator
    let sb := sb.addStep
      ("Create Fraction(" ++ ToString.toString originalNum ++ ", " ++
        ToString.toString originalDenom ++ ")")
      (some ("\\frac\x7b" ++ ToString.toString originalNum ++ "\x7d\x7b" ++
        ToString.toString originalDenom ++ "\x7d"))
    let absNum : ℤ := (originalNum.natAbs : ℤ)
    let divisor := jsGcd absNum originalDenom
    if divisor = 1 then
      let sb := sb.addStep
        ("gcd(" ++ ToString.toString absNum ++ ", " ++
          ToString.toString originalDenom ++ ") = 1")
        (some ("\\gcd(" ++ ToString.toString absNum ++ ", " ++
          ToString.toString originalDenom ++ ") = 1"))
      let sb := sb.addStep "Fraction is already in lowest terms" none
      .ok (sb.build frac.toString (some frac.toLatex))
    else
      let sb := sb.addStep
        ("gcd(" ++ ToString.toString absNum ++ ", " ++
          ToString.toString originalDenom ++ ") = " ++ ToString.toString divisor)
        (some ("\\gcd(" ++ ToString.toString absNum ++ ", " ++
          ToString.toString originalDenom ++ ") = " ++ ToString.toString divisor))
      let simplifiedNum := originalNum / divisor
      let simplifiedDenom := originalDenom / divisor
      let sb := sb.addStep
        ("Divide numerator and denominator by " ++ ToString.toString divisor)
        (some ("\\frac\x7b" ++ ToString.toString originalNum ++ " \\div " ++
          ToString.toString divisor ++ "\x7d\x7b" ++ ToString.toString originalDenom ++
          " \\div " ++ ToString.toString divisor ++ "\x7d = \\frac\x7b" ++
          ToString.toString simplifiedNum ++ "\x7d\x7b" ++
          ToString.toString simplifiedDenom ++ "\x7d"))
      match Fraction.create (JsNum.ofInt simplifiedNum) (JsNum.ofInt simplifiedDenom) true with
      | .error e => .error e
      | .ok simplified =>
        if simplifiedDenom = 1 then
          let sb := sb.addStep ("Simplified to " ++ ToString.toString simplifiedNum)
            (some (ToString.toString simplifiedNum))
          .ok (sb.build (ToString.toString simplifiedNum)
            (some (ToString.toString simplifiedNum)))
        else
          let sb := sb.addStep ("Simplified to " ++ simplified.toString)
            (some simplified.toLatex)
          .ok (sb.build simplified.toString (some simplified.toLatex))

/-- `evaluateNode(node)` (with the empty variable bindings it is always
called with in this engine): post-order exact evaluation, throwing on
variables and unknown shapes. -/
def evaluateNode : AST → Except String Fraction
  | .num f => .ok f
  | .var name => .error ("Unknown variable: " ++ name)
  | .unaryOp op operand => do
    let v ← evaluateNode operand
    if op = '-' then v.negate else .ok v
  | .binOp op l r => do
    let left ← evaluateNode l
    let right ← evaluateNode r
    match op with
    | '+' => left.add right
    | '-' => left.subtract right
    | '*' => left.multiply right
    | '/' => left.divide right
    | '^' => left.pow right.toDecimal
    | _ => .error ("Unknown operator: " ++ String.mk [op])
  | .equation _ _ => .error "Unknown node type: Equation"

/-- The inner `evaluateWithSteps` of `evaluateArithmetic`: threads the
mutable `StepBuilder` so that steps recorded before a throw survive into
the catch block. -/
def evalSteps : AST → StepBuilder → StepBuilder × Except String Fraction
  | .num f, sb => (sb, .ok f)
  | .binOp op l r, sb =>
    match evalSteps l sb with
    | (sb1, .error e) => (sb1, .error e)
    | (sb1, .ok left) =>
      match evalSteps r sb1 with
      | (sb2, .error e) => (sb2, .error e)
      | (sb2, .ok right) =>
        let opName := match op with
          | '+' => "Add" | '-' => "Subtract" | '*' => "Multiply"
          | '/' => "Divide" | '^' => "Power" | _ => ""
        let res := match op with
          | '+' => left.add right
          | '-' => left.subtract right
          | '*' => left.multiply right
          | '/' => left.divide right
          | '^' => left.pow right.toDecimal
          | _ => .error "unknown operator"
        match res with
        | .error e => (sb2, .error e)
        | .ok result =>
          let desc := opName ++ ": " ++ left.toString ++ " " ++ String.mk [op] ++ " " ++
            right.toString ++ " = " ++ result.toString
          let lat := left.toLatex ++ " " ++ getOpSymbol op ++ " " ++ right.toLatex ++
            " = " ++ result.toLatex
          (sb2.addStep desc (some lat), .ok result)
  | .unaryOp op operand, sb =>
    if op = '-' then
      match evalSteps operand sb with
      | (sb1, .error e) => (sb1, .error e)
      | (sb1, .ok v) => (sb1, v.negate)
    else (sb, .error "Cannot evaluate node type: UnaryOp")
  | .var _, sb => (sb, .error "Cannot evaluate node type: Variable")
  | .equation _ _, sb => (sb, .error "Cannot evaluate node type: Equation")

/-- `evaluateArithmetic(input)`: parse, narrate, evaluate; every throw is
caught and converted to an `Error` solution, so the function is total. -/
def evaluateArithmetic (input : String) : Solution :=
  let sb : StepBuilder := ⟨input, []⟩
  match parseString input with
  | .error e => errSol sb e
  | .ok ast =>
    let sb := sb.addStep "Parse expression" (some (astToLatex ast))
    match ast with
    | AST.num f =>
      -- a bare fraction literal is simplified via simplifyFraction
      if f.denominator ≠ 1 then
        match simplifyFraction (.frac f) with
        | .ok sol => sol
        | .error e => errSol sb e
      else sb.build f.toString (some f.toLatex)
    | _ =>
      match evalSteps ast sb with
      | (sb2, .error e) => errSol sb2 e
      | (sb2, .ok result) =>
        match Fraction.create (JsNum.ofInt result.numerator)
            (JsNum.ofInt result.denominator) true with
        | .error e => errSol sb2 e
        | .ok finalSimplified =>
          sb2.build finalSimplified.toString (some finalSimplified.toLatex)

/-- The coefficient map built by `collectTerms`: the `constant` entry and
the variable entries in insertion order. -/
structure Terms where
  constant : Fraction
  vars : List (String × Fraction)
  deriving DecidableEq, Repr

/-- Read a variable coefficient, with the on-demand `new Fraction(0,1)`
initialisation of the source. -/
def Terms.getVar (t : Terms) (name : String) : Fraction :=
  match t.vars.lookup name with
  | some f => f
  | none => ⟨0, 1⟩

/-- Write a variable coefficient (insert at the end on first use). -/
def Terms.setVar (t : Terms) (name : String) (f : Fraction) : Terms :=
  if (t.vars.lookup name).isSome then
    { t with vars := t.vars.map fun p => if p.1 = name then (name, f) else p }
  else { t with vars := t.vars ++ [(name, f)] }

/-- The recursive `collectFromNode` of `collectTerms`, under a
propagated `sign`.  The `try { evaluateNode ... } catch {}` fallbacks
swallow their own failures and leave the map unchanged; arithmetic on the
map itself is not wrapped and propagates. -/
def collectFromNode : AST → ℤ → Terms → Except String Terms
  | .num f, sign, t => do
    let sf ← Fraction.create (JsNum.ofInt sign) (JsNum.ofInt 1) true
    let p ← f.multiply sf
    let c ← t.constant.add p
    .ok { t with constant := c }
  | .var name, sign, t => do
    let sf ← Fraction.create (JsNum.ofInt sign) (JsNum.ofInt 1) true
    let nv ← (t.getVar name).add sf
    .ok (t.setVar name nv)
  | .binOp '+' l r, sign, t => do
    let t1 ← collectFromNode l sign t
    collectFromNode r sign t1
  | .binOp '-' l r, sign, t => do
    let t1 ← collectFromNode l sign t
    collectFromNode r (-sign) t1
  | .binOp '*' l r, sign, t =>
    match l, r with
    | .num coef, .var name => do
      let sf ← Fraction.create (JsNum.ofInt sign) (JsNum.ofInt 1) true
      let m ← coef.multiply sf
      let nv ← (t.getVar name).add m
      .ok (t.setVar name nv)
    | .var name, .num coef => do
      let sf ← Fraction.create (JsNum.ofInt sign) (JsNum.ofInt 1) true
      let m ← coef.multiply sf
      let nv ← (t.getVar name).add m
      .ok (t.setVar name nv)
    | _, _ =>
      match (do
        let v ← evaluateNode (.binOp '*' l r)
        let sf ← Fraction.create (JsNum.ofInt sign) (JsNum.ofInt 1) true
        let m ← v.multiply sf
        t.constant.add m : Except String Fraction) with
      | .ok c => .ok { t with constant := c }
      | .error _ => .ok t
  | .binOp op l r, sign, t =>
    match (do
      let v ← evaluateNode (.binOp op l r)
      let sf ← Fraction.create (JsNum.ofInt sign) (JsNum.ofInt 1) true
      let m ← v.multiply sf
      t.constant.add m : Except String Fraction) with
    | .ok c => .ok { t with constant := c }
    | .error _ => .ok t
  | .unaryOp op operand, sign, t =>
    if op = '-' then collectFromNode operand (-sign) t
    else .ok t
  | .equation _ _, _, t => .ok t

/-- `collectTerms(node)`. -/
def collectTerms (node : AST) : Except String Terms :=
  collectFromNode node 1 ⟨⟨0, 1⟩, []⟩

/-- `solveLinearEquation(input)`: total — every internal throw is caught
and returned as an `Error` solution with the steps recorded so far. -/
def solveLinearEquation (input : String) : Solution :=
  let sb : StepBuilder := ⟨input, []⟩
  match parseString input with
  | .error e => errSol sb e
  | .ok ast =>
    match ast with
    | AST.equation lhs rhs =>
      let sb := sb.addStep "Parse equation" (some (astToLatex ast))
      match collectTerms lhs with
      | .error e => errSol sb e
      | .ok leftTerms =>
      match collectTerms rhs with
      | .error e => errSol sb e
      | .ok rightTerms =>
      let leftKeys := leftTerms.vars.map Prod.fst
      let rightKeys := rightTerms.vars.map Prod.fst
      let allVars := leftKeys ++ rightKeys.filter (fun k => !leftKeys.contains k)
      match allVars with
      | [] => errSol sb "No variable found in equation"
      | _ :: _ :: _ =>
        errSol sb "Multiple variables found - only single variable equations supported"
      | [v] =>
        let leftCoef := leftTerms.getVar v
        let rightCoef := rightTerms.getVar v
        let leftConst := leftTerms.constant
        let rightConst := rightTerms.constant
        match leftCoef.subtract rightCoef with
        | .error e => errSol sb e
        | .ok varCoef =>
        match rightConst.subtract leftConst with
        | .error e => errSol sb e
        | .ok constTerm =>
        match (if rightCoef.isZero then .ok sb else
          match constTerm.add leftConst with
          | .error e => .error e
          | .ok tmp => .ok (sb.addStep
              ("Subtract " ++ rightCoef.toString ++ v ++ " from both sides")
              (some (leftCoef.toLatex ++ v ++ " - " ++ rightCoef.toLatex ++ v ++
                " = " ++ tmp.toLatex))) : Except String StepBuilder) with
        | .error e => errSol sb e
        | .ok sb =>
        let sb :=
          if !leftConst.isZero then
            sb.addStep ("Subtract " ++ leftConst.toString ++ " from both sides")
              (some (varCoef.toLatex ++ v ++ " = " ++ constTerm.toLatex))
          else if rightCoef.isZero && !leftConst.isZero then
            -- dead branch of the source, kept for fidelity
            (sb.addStep ("Subtract " ++ leftConst.toString ++ " from both sides")
              (some (varCoef.toLatex ++ v ++ " = " ++ rightConst.toLatex ++ " - " ++
                leftConst.toLatex))).addStep "Simplify right side"
              (some (varCoef.toLatex ++ v ++ " = " ++ constTerm.toLatex))
          else sb
        if varCoef.isZero then
          if constTerm.isZero then
            (sb.addStep "Equation is always true (infinite solutions)" none).build
              "infinite solutions" (some "\\infty \\text\x7b solutions\x7d")
          else
            (sb.addStep "Equation has no solution" none).build
              "no solution" (some "\\text\x7bno solution\x7d")
        else
          match constTerm.divide varCoef with
          | .error e => errSol sb e
          | .ok solution =>
            let sb :=
              if !varCoef.isOne then
                sb.addStep ("Divide both sides by " ++ varCoef.toString)
                  (some (v ++ " = \\frac\x7b" ++ constTerm.toLatex ++ "\x7d\x7b" ++
                    varCoef.toLatex ++ "\x7d"))
              else sb
            let sb := sb.addStep ("Solution: " ++ v ++ " = " ++ solution.toString)
              (some (v ++ " = " ++ solution.toLatex))
            let base := sb.build (v ++ " = " ++ solution.toString)
              (some (v ++ " = " ++ solution.toLatex))
            { base with varName := some v, solution := some solution.toJSON }
    | _ => errSol sb "Input is not an equation"

/-- `solve(input)`: dispatch on the classification.  Only the fraction
branch can propagate an exception (`simplifyFraction` has no internal
catch); the other branches are total. -/
def solve (input : String) : Except String Solution :=
  match detectExpressionType input with
  | "fraction" => simplifyFraction (.str input)
  | "arithmetic" => .ok (evaluateArithmetic input)
  | "arithmetic_equation" => .ok (evaluateArithmetic input)
  | "algebraic_equation" => .ok (solveLinearEquation input)
  | "algebraic_expression" => .ok (evaluateArithmetic input)
  | _ => .ok ⟨input, [⟨"Could not parse expression", none, 1⟩], ⟨"Unknown", "?"⟩, none, none⟩

/-- `canSolve(input)`. -/
def canSolve (input : String) : Bool := detectExpressionType input != "unknown"

/-! ## Analysis lemmas for the Fraction invariant and arithmetic -/

deriving instance DecidableEq for Except

/-- Rounding an integer-valued number is the identity. -/
theorem jsRound_ofInt (n : ℤ) : jsRound (JsNum.ofInt n) = n := by
  unfold jsRound JsNum.ofInt
  dsimp only
  omega

theorem ofInt_isZero (y : ℤ) : (JsNum.ofInt y).isZero = (y == 0) := by
  simp [JsNum.isZero, JsNum.ofInt]

theorem gcd_natAbs_left (n d : ℤ) : Int.gcd ((n.natAbs : ℤ)) d = Int.gcd n d := by
  unfold Int.gcd
  rw [Int.natAbs_ofNat]

theorem gcd_pos_of_den (n d : ℤ) (hd : d ≠ 0) : 0 < Int.gcd n d := by
  rcases Nat.eq_zero_or_pos (Int.gcd n d) with h | h
  · exact absurd (Int.gcd_eq_zero_iff.mp h).2 hd
  · exact h

theorem create_int_eq (x y : ℤ) (hy : y ≠ 0) :
    Fraction.create (JsNum.ofInt x) (JsNum.ofInt y) true =
      .ok ⟨(if y < 0 then -x else x) /
             (Int.gcd (if y < 0 then -x else x) (if y < 0 then -y else y) : ℤ),
           (if y < 0 then -y else y) /
             (Int.gcd (if y < 0 then -x else x) (if y < 0 then -y else y) : ℤ)⟩ := by
  unfold Fraction.create
  rw [ofInt_isZero]
  simp only [jsRound_ofInt, jsGcd, gcd_natAbs_left, hy, beq_iff_eq, if_false, if_true]

theorem ediv_cast_of_dvd {a b : ℤ} (h : b ∣ a) (hb : b ≠ 0) :
    ((a / b : ℤ) : ℚ) = (a : ℚ) / (b : ℚ) := by
  obtain ⟨c, rfl⟩ := h
  rw [Int.mul_ediv_cancel_left _ hb]
  push_cast
  rw [mul_div_assoc]
  field_simp

theorem reduce_valid (n d : ℤ) (hd : 0 < d) :
    Fraction.valid ⟨n / (Int.gcd n d : ℤ), d / (Int.gcd n d : ℤ)⟩ ∧
      Fraction.val ⟨n / (Int.gcd n d : ℤ), d / (Int.gcd n d : ℤ)⟩ = (n : ℚ) / (d : ℚ) := by
  have hgpos : 0 < Int.gcd n d := gcd_pos_of_den n d (by omega)
  have hred : Int.gcd (n / (Int.gcd n d : ℤ)) (d / (Int.gcd n d : ℤ)) = 1 :=
    Int.gcd_div_gcd_div_gcd hgpos
  set g : ℤ := (Int.gcd n d : ℤ) with hgdef
  have hgZpos : (0 : ℤ) < g := by rw [hgdef]; exact_mod_cast hgpos
  obtain ⟨n', hn'⟩ := (Int.gcd_dvd_left : g ∣ n)
  obtain ⟨d', hd'⟩ := (Int.gcd_dvd_right : g ∣ d)
  rw [← hgdef] at hn' hd'
  have hnq : n / g = n' := by
    rw [hn']; exact Int.mul_ediv_cancel_left _ (by omega)
  have hdq : d / g = d' := by
    rw [hd']; exact Int.mul_ediv_cancel_left _ (by omega)
  have hd'pos : 0 < d' := by nlinarith
  refine ⟨⟨by simpa [hdq] using hd'pos, hred⟩, ?_⟩
  unfold Fraction.val
  dsimp only
  rw [hnq, hdq, hn', hd']
  push_cast
  rw [mul_div_mul_left]
  exact_mod_cast (by omega : g ≠ 0)

theorem create_int (x y : ℤ) (hy : y ≠ 0) :
    ∃ f, Fraction.create (JsNum.ofInt x) (JsNum.ofInt y) true = .ok f ∧
      Fraction.valid f ∧ Fraction.val f = (x : ℚ) / (y : ℚ) := by
  rw [create_int_eq x y hy]
  by_cases hneg : y < 0
  · simp only [hneg, if_true]
    rcases reduce_valid (-x) (-y) (by omega) with ⟨hv, hval⟩
    refine ⟨_, rfl, hv, ?_⟩
    rw [hval]
    push_cast
    rw [neg_div_neg_eq]
  · simp only [hneg, if_false]
    rcases reduce_valid x y (by omega) with ⟨hv, hval⟩
    exact ⟨_, rfl, hv, hval⟩

theorem create_int_ok {x y : ℤ} {f : Fraction}
    (h : Fraction.create (JsNum.ofInt x) (JsNum.ofInt y) true = .ok f) :
    Fraction.valid f ∧ Fraction.val f = (x : ℚ) / (y : ℚ) := by
  by_cases hy : y = 0
  · subst hy
    unfold Fraction.create at h
    rw [ofInt_isZero] at h
    simp at h
  · rcases create_int x y hy with ⟨g, hg, hv, hval⟩
    rw [h] at hg
    cases hg
    exact ⟨hv, hval⟩

theorem jsLcm_eq_lcm (a b : ℤ) : jsLcm a b = (Int.lcm a b : ℤ) := by
  unfold jsLcm jsGcd
  rw [Int.natAbs_mul, ← Int.ofNat_ediv]
  rfl

theorem add_total (a b : Fraction) (ha : 0 < a.denominator) (hb : 0 < b.denominator) :
    ∃ c, a.add b = .ok c ∧ Fraction.valid c ∧
      Fraction.val c = Fraction.val a + Fraction.val b := by
  unfold Fraction.add
  rw [jsLcm_eq_lcm]
  have hda : a.denominator ≠ 0 := by omega
  have hdb : b.denominator ≠ 0 := by omega
  have hlcm0 : Int.lcm a.denominator b.denominator ≠ 0 :=
    Nat.lcm_ne_zero (by simpa [Int.natAbs_ne_zero] using hda)
      (by simpa [Int.natAbs_ne_zero] using hdb)
  set cd : ℤ := (Int.lcm a.denominator b.denominator : ℤ) with hcddef
  have hcd0 : cd ≠ 0 := by
    rw [hcddef]; exact_mod_cast hlcm0
  have hdvd1 : a.denominator ∣ cd := by rw [hcddef]; exact Int.dvd_lcm_left
  have hdvd2 : b.denominator ∣ cd := by rw [hcddef]; exact Int.dvd_lcm_right
  have hq1 : a.denominator * (cd / a.denominator) = cd := Int.mul_ediv_cancel' hdvd1
  have hq2 : b.denominator * (cd / b.denominator) = cd := Int.mul_ediv_cancel' hdvd2
  obtain ⟨c, hok, hv, hval⟩ := create_int
    (a.numerator * (cd / a.denominator) + b.numerator * (cd / b.denominator)) cd hcd0
  refine ⟨c, hok, hv, ?_⟩
  rw [hval]
  unfold Fraction.val
  have hq1' : (a.denominator : ℚ) * ((cd / a.denominator : ℤ) : ℚ) = (cd : ℚ) := by
    exact_mod_cast congrArg (Int.cast : ℤ → ℚ) hq1
  have hq2' : (b.denominator : ℚ) * ((cd / b.denominator : ℤ) : ℚ) = (cd : ℚ) := by
    exact_mod_cast congrArg (Int.cast : ℤ → ℚ) hq2
  have hdaQ : (a.denominator : ℚ) ≠ 0 := by exact_mod_cast hda
  have hdbQ : (b.denominator : ℚ) ≠ 0 := by exact_mod_cast hdb
  have hcdQ : (cd : ℚ) ≠ 0 := by exact_mod_cast hcd0
  rw [div_add_div _ _ hdaQ hdbQ, div_eq_div_iff hcdQ (mul_ne_zero hdaQ hdbQ)]
  push_cast
  linear_combination ((a.numerator : ℚ) * (b.denominator : ℚ)) * hq1' +
    ((b.numerator : ℚ) * (a.denominator : ℚ)) * hq2'

theorem negate_total (b : Fraction) (hb : 0 < b.denominator) :
    ∃ nb, b.negate = .ok nb ∧ Fraction.valid nb ∧ Fraction.val nb = -Fraction.val b := by
  unfold Fraction.negate
  obtain ⟨nb, hok, hv, hval⟩ := create_int (-b.numerator) b.denominator (by omega)
  refine ⟨nb, hok, hv, ?_⟩
  rw [hval]
  unfold Fraction.val
  push_cast
  ring

theorem valid_val_inj {f g : Fraction} (hf : Fraction.valid f) (hg : Fraction.valid g)
    (h : Fraction.val f = Fraction.val g) : f = g := by
  obtain ⟨hfd, hfg⟩ := hf
  obtain ⟨hgd, hgg⟩ := hg
  unfold Fraction.val at h
  rw [div_eq_div_iff (by exact_mod_cast (by omega : f.denominator ≠ 0))
    (by exact_mod_cast (by omega : g.denominator ≠ 0))] at h
  have hcross : f.numerator * g.denominator = g.numerator * f.denominator := by
    exact_mod_cast h
  have hcop1 : IsCoprime f.denominator f.numerator :=
    Int.gcd_eq_one_iff_coprime.mp (by rw [Int.gcd_comm]; exact hfg)
  have hcop2 : IsCoprime g.denominator g.numerator :=
    Int.gcd_eq_one_iff_coprime.mp (by rw [Int.gcd_comm]; exact hgg)
  have h1 : f.denominator ∣ g.denominator :=
    hcop1.dvd_of_dvd_mul_left ⟨g.numerator, by linarith [hcross]⟩
  have h2 : g.denominator ∣ f.denominator :=
    hcop2.dvd_of_dvd_mul_left ⟨f.numerator, by linarith [hcross]⟩
  have hdeq : f.denominator = g.denominator :=
    Int.dvd_antisymm (by omega) (by omega) h1 h2
  have hneq : f.numerator = g.numerator := by
    have := hcross
    rw [hdeq] at this
    exact mul_right_cancel₀ (by omega) this
  cases f; cases g
  simp_all

theorem c8_roundtrip (a b : Fraction) (ha : Fraction.valid a) (hb : Fraction.valid b) :
    ∃ c d, a.add b = .ok c ∧ c.subtract b = .ok d ∧ d.equals a = true := by
  obtain ⟨c, hc, hcv, hcval⟩ := add_total a b ha.1 hb.1
  obtain ⟨nb, hnb, hnbv, hnbval⟩ := negate_total b hb.1
  obtain ⟨e, he, hev, heval⟩ := add_total c nb hcv.1 hnbv.1
  have he2 : c.subtract b = .ok e := by
    unfold Fraction.subtract
    rw [hnb]
    exact he
  have heq : e = a := valid_val_inj hev ha (by rw [heval, hcval, hnbval]; ring)
  refine ⟨c, e, hc, he2, ?_⟩
  rw [heq]
  unfold Fraction.equals
  simp

theorem add_ok {a b c : Fraction} (h : a.add b = .ok c) : Fraction.valid c := by
  unfold Fraction.add at h
  exact (create_int_ok h).1

theorem negate_ok {a c : Fraction} (h : a.negate = .ok c) : Fraction.valid c := by
  unfold Fraction.negate at h
  exact (create_int_ok h).1

theorem abs_ok {a c : Fraction} (h : a.abs = .ok c) : Fraction.valid c := by
  unfold Fraction.abs at h
  exact (create_int_ok h).1

theorem multiply_ok {a b c : Fraction} (h : a.multiply b = .ok c) : Fraction.valid c := by
  unfold Fraction.multiply at h
  exact (create_int_ok h).1

theorem reciprocal_ok {a c : Fraction} (h : a.reciprocal = .ok c) : Fraction.valid c := by
  unfold Fraction.reciprocal at h
  split at h
  · exact absurd h (by simp)
  · exact (create_int_ok h).1

theorem subtract_ok {a b c : Fraction} (h : a.subtract b = .ok c) : Fraction.valid c := by
  unfold Fraction.subtract at h
  cases hb : b.negate with
  | error e => rw [hb] at h; exact absurd h (by simp)
  | ok nb => rw [hb] at h; exact add_ok h

theorem divide_ok {a b c : Fraction} (h : a.divide b = .ok c) : Fraction.valid c := by
  unfold Fraction.divide at h
  split at h
  · exact absurd h (by simp)
  · cases hb : b.reciprocal with
    | error e => rw [hb] at h; exact absurd h (by simp)
    | ok r => rw [hb] at h; exact multiply_ok h

theorem powPosInt_ok {a : Fraction} {e : ℕ} {c : Fraction}
    (h : a.powPosInt e = .ok c) : Fraction.valid c := by
  unfold Fraction.powPosInt at h
  exact (create_int_ok h).1

theorem pow_ok {a : Fraction} {e : JsNum} {c : Fraction}
    (h : a.pow e = .ok c) : Fraction.valid c := by
  unfold Fraction.pow at h
  split at h
  · exact absurd h (by simp)
  · split at h
    · exact (create_int_ok h).1
    · split at h
      · cases hr : a.reciprocal with
        | error er => rw [hr] at h; exact absurd h (by simp)
        | ok r => rw [hr] at h; exact powPosInt_ok h
      · exact powPosInt_ok h

/-! ## Claim theorems -/

/-- C1: the claim states that `solve` never raises and that failures in
any dispatched branch — including the fraction branch — come back as a
Solution whose final step begins "Error: " with result value "Error".
The code contradicts this (and its own test suite, which calls
`solve('1/2 + 1/4')` expecting a normal result): `simplifyFraction` has
no try/catch, so inputs classified as `fraction` whose
`parseFraction`/constructor call throws make `solve` itself throw.  This
theorem evaluates the code at two such failing inputs. -/
theorem solve_fraction_branch_throws :
    detectExpressionType "1/0" = "fraction" ∧
    solve "1/0" = .error "Division by zero: denominator cannot be 0" ∧
    detectExpressionType "1/2 + 1/4" = "fraction" ∧
    solve "1/2 + 1/4" = .error "Cannot parse fraction from: \"1/2 + 1/4\"" :=
  ⟨rfl, rfl, rfl, rfl⟩

/-- C2: the claim states `solve("1/3 + 1/3")` returns a Solution with
result value "2/3".  In the code, `isFractionExpression` matches the
substring `1/3`, so the input is classified `fraction` and handed to
`simplifyFraction`, whose `parseFraction` call throws (none of its
anchored patterns match the whole string) — the exception escapes
`solve`.  The repository's own tests assert the claimed behaviour on the
same pattern (`solve('1/2 + 1/4') === '3/4'` and
`detectExpressionType('2/3 + 1/4') === 'arithmetic'`), so the code, not
the claim, is at fault. -/
theorem solve_one_third_plus_one_third_throws :
    detectExpressionType "1/3 + 1/3" = "fraction" ∧
    solve "1/3 + 1/3" = .error "Cannot parse fraction from: \"1/3 + 1/3\"" :=
  ⟨rfl, rfl⟩

/-- C3: the constructor (with default `autoSimplify`) on integer
arguments with a non-zero denominator yields a reduced fraction with a
positive denominator, and every Fraction returned by `add`, `subtract`,
`multiply`, `divide`, `pow`, `negate`, `abs` and `reciprocal` has the
same invariant (`Int.gcd` is the gcd of the absolute values). -/
theorem fraction_constructor_and_ops_invariant :
    (∀ n d : ℤ, d ≠ 0 →
      ∃ f, Fraction.create (JsNum.ofInt n) (JsNum.ofInt d) true = .ok f ∧
        0 < f.denominator ∧ Int.gcd f.numerator f.denominator = 1) ∧
    (∀ a b c : Fraction, a.add b = .ok c →
      0 < c.denominator ∧ Int.gcd c.numerator c.denominator = 1) ∧
    (∀ a b c : Fraction, a.subtract b = .ok c →
      0 < c.denominator ∧ Int.gcd c.numerator c.denominator = 1) ∧
    (∀ a b c : Fraction, a.multiply b = .ok c →
      0 < c.denominator ∧ Int.gcd c.numerator c.denominator = 1) ∧
    (∀ a b c : Fraction, a.divide b = .ok c →
      0 < c.denominator ∧ Int.gcd c.numerator c.denominator = 1) ∧
    (∀ (a : Fraction) (e : JsNum) (c : Fraction), a.pow e = .ok c →
      0 < c.denominator ∧ Int.gcd c.numerator c.denominator = 1) ∧
    (∀ a c : Fraction, a.negate = .ok c →
      0 < c.denominator ∧ Int.gcd c.numerator c.denominator = 1) ∧
    (∀ a c : Fraction, a.abs = .ok c →
      0 < c.denominator ∧ Int.gcd c.numerator c.denominator = 1) ∧
    (∀ a c : Fraction, a.reciprocal = .ok c →
      0 < c.denominator ∧ Int.gcd c.numerator c.denominator = 1) := by
  refine ⟨?_, ?_, ?_, ?_, ?_, ?_, ?_, ?_, ?_⟩
  · intro n d hd
    obtain ⟨f, hok, hv, _⟩ := create_int n d hd
    exact ⟨f, hok, hv⟩
  · exact fun a b c h => add_ok h
  · exact fun a b c h => subtract_ok h
  · exact fun a b c h => multiply_ok h
  · exact fun a b c h => divide_ok h
  · exact fun a e c h => pow_ok h
  · exact fun a c h => negate_ok h
  · exact fun a c h => abs_ok h
  · exact fun a c h => reciprocal_ok h

/-- C3 witness: the invariant theorem applied at concrete inputs, one
per conjunct, each hypothesis discharged by evaluation. -/
theorem fraction_constructor_and_ops_invariant_witness :
    (∃ f, Fraction.create (JsNum.ofInt 6) (JsNum.ofInt 8) true = .ok f ∧
      0 < f.denominator ∧ Int.gcd f.numerator f.denominator = 1) ∧
    (0 < (⟨5, 6⟩ : Fraction).denominator ∧
      Int.gcd (⟨5, 6⟩ : Fraction).numerator (⟨5, 6⟩ : Fraction).denominator = 1) ∧
    (0 < (⟨1, 6⟩ : Fraction).denominator ∧
      Int.gcd (⟨1, 6⟩ : Fraction).numerator (⟨1, 6⟩ : Fraction).denominator = 1) ∧
    (0 < (⟨1, 2⟩ : Fraction).denominator ∧
      Int.gcd (⟨1, 2⟩ : Fraction).numerator (⟨1, 2⟩ : Fraction).denominator = 1) ∧
    (0 < (⟨2, 3⟩ : Fraction).denominator ∧
      Int.gcd (⟨2, 3⟩ : Fraction).numerator (⟨2, 3⟩ : Fraction).denominator = 1) ∧
    (0 < (⟨4, 9⟩ : Fraction).denominator ∧
      Int.gcd (⟨4, 9⟩ : Fraction).numerator (⟨4, 9⟩ : Fraction).denominator = 1) ∧
    (0 < (⟨-1, 2⟩ : Fraction).denominator ∧
      Int.gcd (⟨-1, 2⟩ : Fraction).numerator (⟨-1, 2⟩ : Fraction).denominator = 1) ∧
    (0 < (⟨1, 2⟩ : Fraction).denominator ∧
      Int.gcd (⟨1, 2⟩ : Fraction).numerator (⟨1, 2⟩ : Fraction).denominator = 1) ∧
    (0 < (⟨3, 2⟩ : Fraction).denominator ∧
      Int.gcd (⟨3, 2⟩ : Fraction).numerator (⟨3, 2⟩ : Fraction).denominator = 1) :=
  ⟨fraction_constructor_and_ops_invariant.1 6 8 (by decide),
   fraction_constructor_and_ops_invariant.2.1 ⟨1, 2⟩ ⟨1, 3⟩ ⟨5, 6⟩ rfl,
   fraction_constructor_and_ops_invariant.2.2.1 ⟨1, 2⟩ ⟨1, 3⟩ ⟨1, 6⟩ rfl,
   fraction_constructor_and_ops_invariant.2.2.2.1 ⟨2, 3⟩ ⟨3, 4⟩ ⟨1, 2⟩ rfl,
   fraction_constructor_and_ops_invariant.2.2.2.2.1 ⟨1, 2⟩ ⟨3, 4⟩ ⟨2, 3⟩ rfl,
   fraction_constructor_and_ops_invariant.2.2.2.2.2.1 ⟨2, 3⟩ (JsNum.ofInt 2) ⟨4, 9⟩ rfl,
   fraction_constructor_and_ops_invariant.2.2.2.2.2.2.1 ⟨1, 2⟩ ⟨-1, 2⟩ rfl,
   fraction_constructor_and_ops_invariant.2.2.2.2.2.2.2.1 ⟨-1, 2⟩ ⟨1, 2⟩ (by decide),
   fraction_constructor_and_ops_invariant.2.2.2.2.2.2.2.2 ⟨2, 3⟩ ⟨3, 2⟩ rfl⟩

/-- C4 counterexample: the claim states parsing "2x^2" yields
`2*(x^2)` with nothing dropped; in fact `parse` returns `2*x` (and that
AST differs from the claimed one). -/
theorem parse_two_x_squared_not_claimed_ast :
    parseString "2x^2" = .ok (AST.binOp '*' (AST.num ⟨2, 1⟩) (AST.var "x")) ∧
    AST.binOp '*' (AST.num ⟨2, 1⟩) (AST.var "x") ≠
      AST.binOp '*' (AST.num ⟨2, 1⟩) (AST.binOp '^' (AST.var "x") (AST.num ⟨2, 1⟩)) :=
  ⟨rfl, by decide⟩

/-- C4 amended: parsing "2x^2" produces `2*x`; the `^` test in
`parseFactor` runs before the implicit-multiplication loop and `parse()`
never requires the tokens to be exhausted, so the trailing `^2` is left
unconsumed and silently dropped. -/
theorem parse_two_x_squared_drops_exponent :
    tokenize "2x^2" = .ok [Token.number ⟨2, 1⟩, Token.var "x", Token.power,
      Token.number ⟨2, 1⟩, Token.eof] ∧
    parseString "2x^2" = .ok (AST.binOp '*' (AST.num ⟨2, 1⟩) (AST.var "x")) :=
  ⟨rfl, rfl⟩

/-- C5 counterexample: the claim states the steps of
`simplifyFraction("6/8")` narrate the division by gcd(6,8)=2; in fact
`parseFraction` auto-simplifies `6/8` to `3/4` first, so the recorded
steps are the "already in lowest terms" sequence and no division step
occurs. -/
theorem simplifyFraction_six_eighths_no_divide_step :
    ∃ sol, simplifyFraction (.str "6/8") = .ok sol ∧
      sol.steps.map (fun s => s.description) =
        ["Create Fraction(3, 4)", "gcd(3, 4) = 1",
         "Fraction is already in lowest terms"] ∧
      ∀ s ∈ sol.steps, s.description ≠ "Divide numerator and denominator by 2" :=
  ⟨_, rfl, rfl, by decide⟩

/-- C5 amended: `simplifyFraction("6/8")` returns result value "3/4",
but because `parseFraction` already reduced the fraction, the computed
gcd is 1 and the steps state "already in lowest terms" instead of
narrating a division. -/
theorem simplifyFraction_six_eighths_steps :
    ∃ sol, simplifyFraction (.str "6/8") = .ok sol ∧
      sol.result.value = "3/4" ∧
      sol.steps.map (fun s => s.description) =
        ["Create Fraction(3, 4)", "gcd(3, 4) = 1",
         "Fraction is already in lowest terms"] :=
  ⟨_, rfl, rfl, rfl⟩

/-- C6 counterexample: the claim states `solveLinearEquation` raises
NoVariableError / MultipleVariablesError to direct callers; in fact its
catch-all converts both throws into a normally returned Error solution. -/
theorem solveLinearEquation_no_variable_caught :
    (solveLinearEquation "1 = 5").result.value = "Error" ∧
    ((solveLinearEquation "1 = 5").steps.map (fun s => s.description)).getLast? =
      some "Error: No variable found in equation" ∧
    (solveLinearEquation "x + y = 1").result.value = "Error" ∧
    ((solveLinearEquation "x + y = 1").steps.map (fun s => s.description)).getLast? =
      some "Error: Multiple variables found - only single variable equations supported" :=
  ⟨rfl, rfl, rfl, rfl⟩

/-- C6 amended: on an equation with no variable (resp. more than one
distinct variable), `solveLinearEquation` returns — it does not raise —
a Solution whose final step is "Error: No variable found in equation"
(resp. "Error: Multiple variables found - only single variable
equations supported") and whose result value is "Error". -/
theorem solveLinearEquation_error_solutions :
    (solveLinearEquation "1 = 5").steps.map (fun s => s.description) =
      ["Parse equation", "Error: No variable found in equation"] ∧
    (solveLinearEquation "1 = 5").result.value = "Error" ∧
    (solveLinearEquation "x + y = 1").steps.map (fun s => s.description) =
      ["Parse equation",
       "Error: Multiple variables found - only single variable equations supported"] ∧
    (solveLinearEquation "x + y = 1").result.value = "Error" :=
  ⟨rfl, rfl, rfl, rfl⟩

/-- C7 counterexample: the claim states that a `/` separated from the
number by whitespace (as in "2 / 3") forms no FRACTION token; in fact
the lexer skips whitespace on both sides of the `/`, so "2 / 3" lexes
as a single FRACTION token. -/
theorem tokenize_spaced_slash_forms_fraction :
    tokenize "2 / 3" = .ok [Token.fraction ⟨2, 3⟩, Token.eof] :=
  rfl

/-- C7 amended: after a numeric literal the lexer skips whitespace; a
following `/` yields a single FRACTION token if and only if the next
non-whitespace character after the `/` is a digit, and otherwise the
number lexes as NUMBER followed by OPERATOR('/') — whitespace around
the `/` does not prevent fraction formation. -/
theorem tokenize_fraction_token_cases :
    tokenize "2/3" = .ok [Token.fraction ⟨2, 3⟩, Token.eof] ∧
    tokenize "2 / 3" = .ok [Token.fraction ⟨2, 3⟩, Token.eof] ∧
    tokenize "2/x" = .ok [Token.number ⟨2, 1⟩, Token.operator '/',
      Token.var "x", Token.eof] ∧
    tokenize "2 / x" = .ok [Token.number ⟨2, 1⟩, Token.operator '/',
      Token.var "x", Token.eof] ∧
    tokenize "2 + 3" = .ok [Token.number ⟨2, 1⟩, Token.operator '+',
      Token.number ⟨3, 1⟩, Token.eof] :=
  ⟨rfl, rfl, rfl, rfl, rfl⟩

/-- C8: for all invariant-satisfying Fractions `a` and `b` (the class
invariant of every constructor-built instance), `a.add(b).subtract(b)`
succeeds and `equals` the original `a`. -/
theorem fraction_add_subtract_roundtrip (a b : Fraction)
    (ha : Fraction.valid a) (hb : Fraction.valid b) :
    ∃ c d, a.add b = .ok c ∧ c.subtract b = .ok d ∧ d.equals a = true :=
  c8_roundtrip a b ha hb

/-- C8 witness: the round-trip theorem at `a = b = 1/3`. -/
theorem fraction_add_subtract_roundtrip_witness :
    ∃ c d, Fraction.add ⟨1, 3⟩ ⟨1, 3⟩ = .ok c ∧
      Fraction.subtract c ⟨1, 3⟩ = .ok d ∧ d.equals ⟨1, 3⟩ = true :=
  fraction_add_subtract_roundtrip ⟨1, 3⟩ ⟨1, 3⟩ (by decide) (by decide)

/-- C9: `parse()` never checks that the token stream is fully consumed:
for "2x^2" and "1 + 2 3" the top-level parse succeeds with tokens left
over beyond the consumed prefix, and `parse` returns the prefix AST
without error. -/
theorem parse_ignores_trailing_tokens :
    (∃ ts, tokenize "2x^2" = .ok ts ∧
      parseTokens ts = .ok (AST.binOp '*' (AST.num ⟨2, 1⟩) (AST.var "x"),
        [Token.power, Token.number ⟨2, 1⟩, Token.eof])) ∧
    (∃ ts, tokenize "1 + 2 3" = .ok ts ∧
      parseTokens ts = .ok (AST.binOp '+' (AST.num ⟨1, 1⟩) (AST.num ⟨2, 1⟩),
        [Token.number ⟨3, 1⟩, Token.eof])) ∧
    parseString "2x^2" = .ok (AST.binOp '*' (AST.num ⟨2, 1⟩) (AST.var "x")) ∧
    parseString "1 + 2 3" = .ok (AST.binOp '+' (AST.num ⟨1, 1⟩) (AST.num ⟨2, 1⟩)) :=
  ⟨⟨_, rfl, rfl⟩, ⟨_, rfl, rfl⟩, rfl, rfl⟩

/-- C10: the constructor checks `denominator === 0` before rounding, so
the non-integer denominator 0.4 (here the exact rational 2/5, non-zero
and of magnitude below 1/2, not an integer) passes the guard, rounds to
0, and `Fraction(3, 0.4)` is constructed with denominator 0 without any
DivisionByZero being thrown. -/
theorem constructor_rounding_bypasses_zero_guard :
    (JsNum.isZero ⟨2, 5⟩ = false) ∧
    (JsNum.isInt ⟨2, 5⟩ = false) ∧
    jsRound ⟨2, 5⟩ = 0 ∧
    Fraction.create (JsNum.ofInt 3) ⟨2, 5⟩ true = .ok ⟨1, 0⟩ ∧
    (⟨1, 0⟩ : Fraction).denominator = 0 :=
  ⟨rfl, rfl, rfl, rfl, rfl⟩
